import Mathlib

/-!
Verification of the FastAPI-Mercadona catalog mirror (src/main.py).

The development shallowly embeds the pieces of `main.py` the claims are
about: the pydantic data model, the three-phase `sync_database` pipeline,
the SQLite product table with its `INSERT OR REPLACE` upsert, the
`LIKE`-based search of `search_products` / `search_products_api`,
`parse_price`, and the session cart (`add_to_cart`, `update_cart`,
`view_cart`).

Modelling conventions:
- SQLite table rows become a Lean list of `ProductRow`; `INSERT OR
  REPLACE` keyed on the primary key `id` replaces the existing row in
  place (or appends a fresh one); store content is observed through
  `findById` (row lookup by primary key), matching SQLite's unordered
  content semantics.
- Network fetches become oracles (pure functions from the request key to
  an outcome), so a sync run is a deterministic function of which fetches
  succeed, mirroring the code's per-task try/except handling.
- Python floats are modelled as `Rat`; the decimal strings accepted by
  `float()` that arise here (sign, digits, one decimal point) are parsed
  exactly.
-/

namespace Mercadona

/-! ### Data model (the pydantic models of main.py) -/

/-- Model of `PriceInstructions`: all fields optional. `unit_size` (a
Python float) is modelled as `Rat`. -/
structure PriceInstructions where
  unit_price : Option String
  bulk_price : Option String
  unit_size : Option Rat
  size_format : Option String
deriving DecidableEq

/-- Model of `Product` (the product stub embedded in a category response). -/
structure Product where
  id : String
  display_name : String
  thumbnail : String
  price_instructions : PriceInstructions
  share_url : String
deriving DecidableEq

/-- Model of `SubCategoryWithProducts`. -/
structure SubCategoryWithProducts where
  id : Int
  name : String
  products : Option (List Product)
deriving DecidableEq

/-- Model of `CategoryDetail` (response of `/api/categories/{id}`). -/
structure CategoryDetail where
  id : Int
  name : String
  categories : List SubCategoryWithProducts
deriving DecidableEq

/-- Model of `SubCategorySimple`. -/
structure SubCategorySimple where
  id : Int
  name : String
deriving DecidableEq

/-- Model of `MainCategorySimple`. -/
structure MainCategorySimple where
  id : Int
  name : String
  categories : List SubCategorySimple
deriving DecidableEq

/-- Model of `Photo`. -/
structure Photo where
  regular : String
deriving DecidableEq

/-- Model of `Supplier`. -/
structure Supplier where
  name : String
deriving DecidableEq

/-- Model of `Details`. -/
structure Details where
  brand : Option String
  origin : Option String
  suppliers : List Supplier
  legal_name : Option String
  mandatory_mentions : Option String
  description : Option String
  storage_instructions : Option String
deriving DecidableEq

/-- Model of `NutritionInformation`. -/
structure NutritionInformation where
  allergens : Option String
  ingredients : Option String
deriving DecidableEq

/-- Model of `ProductDetail` (response of `/api/products/{id}`). -/
structure ProductDetail where
  id : String
  ean : String
  display_name : String
  thumbnail : Option String
  brand : Option String
  photos : List Photo
  details : Details
  packaging : Option String
  price_instructions : PriceInstructions
  nutrition_information : NutritionInformation
  share_url : Option String
deriving DecidableEq

/-! ### The products table (create_database_and_table, lines 149-158) -/

/-- One row of the `products` table: `id TEXT PRIMARY KEY, ean TEXT,
display_name TEXT, thumbnail TEXT, unit_price TEXT, share_url TEXT`.
Columns filled from optional `ProductDetail` fields may be NULL, hence
`Option String`. -/
structure ProductRow where
  id : String
  ean : String
  display_name : String
  thumbnail : Option String
  unit_price : Option String
  share_url : Option String
deriving DecidableEq

/-- The table content, as the list of its rows. -/
abbrev Store := List ProductRow

/-- Row lookup by the primary key `id` (`SELECT * FROM products WHERE id = ?`
followed by `fetchone`, as in `view_cart`): the first row whose `id`
matches, if any. -/
def findById : Store → String → Option ProductRow
  | [], _ => none
  | x :: s, i => if x.id = i then some x else findById s i

/-- One `INSERT OR REPLACE` keyed on the primary key `id`: replace the
existing row with that id, or insert the record as a new row. -/
def upsertRow (s : Store) (r : ProductRow) : Store :=
  if s.any (fun x => x.id = r.id) then
    s.map (fun x => if x.id = r.id then r else x)
  else
    s ++ [r]

/-- The bulk upsert of Phase 3: `executemany` applies the
`INSERT OR REPLACE` statement to each tuple in order (lines 270-273). -/
def upsertBatch (s : Store) (b : List ProductRow) : Store :=
  b.foldl upsertRow s

/-- The last record of a batch carrying a given id (the record whose
values win under sequential `INSERT OR REPLACE`). -/
def lastWith (b : List ProductRow) (i : String) : Option ProductRow :=
  b.foldl (fun acc r => if r.id = i then some r else acc) none

/-- The PRIMARY KEY invariant: no two rows share an `id`. -/
def StoreInv (s : Store) : Prop :=
  (s.map (fun x => x.id)).Nodup

instance (s : Store) : Decidable (StoreInv s) := by
  unfold StoreInv; infer_instance

/-- Number of rows carrying a given id. -/
def countId (s : Store) (i : String) : Nat :=
  s.countP (fun x => x.id = i)

/-! ### The sync pipeline (sync_database, lines 162-282)

Each network fetch is modelled by an oracle giving its outcome, so the
pipeline is a deterministic function of which fetches succeed. -/

/-- Outcome of the Phase-1 top-level category-tree fetch (line 176):
either a validated `ApiResponseSimple` payload, or a hard failure
(transport error, or `raise_for_status` on a non-2xx status, or a
validation error) that propagates to the outer `except`. -/
inductive TreeResult where
  | ok (tree : List MainCategorySimple)
  | failed
deriving DecidableEq

/-- Outcome of one per-subcategory fetch
(`fetch_product_list_from_category_with_progress`, lines 193-215):
a validated `CategoryDetail`, or any failure (caught inside the task
and turned into `[]`). -/
inductive CatResult where
  | ok (cat : CategoryDetail)
  | failed

/-- Outcome of one per-product detail fetch
(`fetch_details_with_progress`, lines 235-253): a validated
`ProductDetail` (200 + parse ok), a 404, or any other failure
(transport, 5xx, validation — all caught and turned into `None`). -/
inductive DetailResult where
  | ok (p : ProductDetail)
  | notFound
  | failed

/-- Lines 202-205: collect the products of every subcategory of a
category response; `if sub.products:` skips both `None` and `[]`
(Python truthiness). -/
def productsOfCategory (c : CategoryDetail) : List Product :=
  c.categories.foldl
    (fun acc sub =>
      match sub.products with
      | some ps => if ps.isEmpty then acc else acc ++ ps
      | none => acc)
    []

/-- One Phase-1 subcategory task: on any failure return `[]`
(lines 213-215). -/
def fetchProductList (oracle : Int → CatResult) (cid : Int) : List Product :=
  match oracle cid with
  | .ok c => productsOfCategory c
  | .failed => []

/-- Lines 181-185: `[sub_cat.id for main_cat in results for sub_cat in
main_cat.categories]`. -/
def subcategoryIds (tree : List MainCategorySimple) : List Int :=
  (tree.flatMap (fun m => m.categories)).map (fun sc => sc.id)

/-- Lines 218-222: run the Phase-1 tasks and flatten
(`all_products_stubs`). -/
def allProductStubs (tree : List MainCategorySimple) (oracle : Int → CatResult) :
    List Product :=
  ((subcategoryIds tree).map (fetchProductList oracle)).flatten

/-- Line 224: `unique_ids = list({p.id for p in all_products_stubs})` — the
set of distinct product ids handed to Phase 2 (set iteration order is
arbitrary; we model it as first-occurrence dedup). -/
def phase1UniqueIds (tree : List MainCategorySimple) (oracle : Int → CatResult) :
    List String :=
  ((allProductStubs tree oracle).map (fun p => p.id)).dedup

/-- One Phase-2 task (lines 235-253): 404 and every other failure give
`None`; a parsed `ProductDetail` gives `Some`. -/
def fetchDetail (oracle : String → DetailResult) (pid : String) :
    Option ProductDetail :=
  match oracle pid with
  | .ok p => some p
  | .notFound => none
  | .failed => none

/-- Lines 255-257: gather the Phase-2 results in launch order and keep
the non-`None` ones (`valid_products`). -/
def validProducts (oracle : String → DetailResult) (ids : List String) :
    List ProductDetail :=
  (ids.map (fetchDetail oracle)).filterMap id

/-- Line 266: the tuple projected out of a `ProductDetail` for the
`INSERT OR REPLACE` statement. -/
def productToRow (p : ProductDetail) : ProductRow :=
  { id := p.id
    ean := p.ean
    display_name := p.display_name
    thumbnail := p.thumbnail
    unit_price := p.price_instructions.unit_price
    share_url := p.share_url }

/-- The fetch outcomes a sync run encounters. -/
structure SyncEnv where
  tree : TreeResult
  catOracle : Int → CatResult
  detailOracle : String → DetailResult

/-- `sync_database` as a store transformer. A failure of the very first
top-level fetch raises out of Phase 1 straight to the outer `except`
(lines 280-282), so the store is never touched
(`create_database_and_table` only creates the empty table if absent and
never changes rows). Otherwise the three phases run and Phase 3 bulk
upserts the projected valid products (lines 262-276). -/
def sync_database (env : SyncEnv) (store : Store) : Store :=
  match env.tree with
  | .failed => store
  | .ok tree =>
      upsertBatch store
        ((validProducts env.detailOracle (phase1UniqueIds tree env.catOracle)).map
          productToRow)

/-! ### Search (search_products lines 400-447, search_products_api
lines 599-637; both build the same SQL) -/

/-- SQLite's default ASCII case folding (used by `LIKE`): upper-case
ASCII letters fold to lower case, every other character is unchanged. -/
def foldChar (c : Char) : Char :=
  if 'A' ≤ c && c ≤ 'Z' then Char.ofNat (c.toNat + 32) else c

/-- Fold a character list. -/
def foldL (l : List Char) : List Char :=
  l.map foldChar

/-- Whether the first list is an initial segment of the second
(character-exact; callers fold first). -/
def startsWithF : List Char → List Char → Bool
  | [], _ => true
  | _ :: _, [] => false
  | c :: cs, d :: ds => (c = d) && startsWithF cs ds

/-- Whether the first list occurs contiguously inside the second
(character-exact; callers fold first). -/
def containsF (n : List Char) : List Char → Bool
  | [] => startsWithF n []
  | d :: t => startsWithF n (d :: t) || containsF n t

/-- SQLite `LIKE` pattern matching with default settings: `%` matches any
(possibly empty) run of characters, `_` matches exactly one character,
and ordinary characters compare after ASCII case folding. -/
def likeMatch : List Char → List Char → Bool
  | [], s => s.isEmpty
  | c :: ps, s =>
      if c = '%' then s.tails.any (fun t => likeMatch ps t)
      else
        match s with
        | [] => false
        | d :: s' => ((c = '_') || (foldChar c = foldChar d)) && likeMatch ps s'

/-- One word's condition `display_name LIKE ?` with parameter
`f"%{word}%"` (lines 421-425 / 616-620). -/
def likeWord (w : String) (name : String) : Bool :=
  likeMatch ('%' :: (w.data ++ ['%'])) name.data

/-- The WHERE clause of lines 428-431 / 623-626:
`(display_name LIKE %w1% AND ... AND LIKE %wn%) OR ean = ? OR id = ?`,
with the raw query bound to the last two parameters. -/
def rowMatches (words : List String) (q : String) (r : ProductRow) : Bool :=
  words.all (fun w => likeWord w r.display_name) || (r.ean = q) || (r.id = q)

/-- The search of both endpoints: `query.strip().split()` gives `words`;
with no words the query is never executed and `results` stays `[]`
(lines 415-436 / 611-631). -/
def search_products (words : List String) (q : String) (s : Store) :
    List ProductRow :=
  if words.isEmpty then [] else s.filter (rowMatches words q)

/-- The spec's reading of one word's match: the word is a
case-insensitive substring of `display_name` (ASCII case folding, as in
SQLite). Built from the spec's words, for comparison with the code's
`likeWord`. -/
def ciSubstr (w : String) (name : String) : Bool :=
  containsF (foldL w.data) (foldL name.data)

/-- The row predicate as the spec words it: every word a case-insensitive
substring of the display name, or `ean`/`id` equal to the raw query. -/
def specMatches (words : List String) (q : String) (r : ProductRow) : Bool :=
  words.all (fun w => ciSubstr w r.display_name) || (r.ean = q) || (r.id = q)

/-- Literal (case-sensitive) substring test, for stating that a LIKE
wildcard word is not a literal substring of a matched name. -/
def litSubstr (w : String) (name : String) : Bool :=
  containsF w.data name.data

/-- A word free of the SQL LIKE wildcard characters. -/
def noWildcard (w : String) : Bool :=
  w.data.all (fun c => !((c = '%') || (c = '_')))

/-! ### parse_price (lines 642-650) -/

/-- Value of a digit string (most significant first). -/
def digitsVal (cs : List Char) : Nat :=
  cs.foldl (fun n c => n * 10 + (c.toNat - '0'.toNat)) 0

/-- Whether every character is a decimal digit. -/
def allDigits (cs : List Char) : Bool :=
  cs.all Char.isDigit

/-- Unsigned part of Python `float()` on the decimal strings arising
here: digits with at most one decimal point and at least one digit
(`"2"`, `"2.50"`, `"2."`, `".5"`); anything else raises `ValueError`,
modelled as `none`. (Exponent, `inf`/`nan` and underscore forms of
`float()` do not occur in this price-string domain and are not
modelled.) -/
def pyFloatCore (cs : List Char) : Option Rat :=
  let a := cs.takeWhile (fun c => c ≠ '.')
  match cs.dropWhile (fun c => c ≠ '.') with
  | [] => if allDigits a && !a.isEmpty then some ((digitsVal a : Int) : Rat) else none
  | _ :: b =>
      if allDigits a && allDigits b && !(a.isEmpty && b.isEmpty) then
        some (((digitsVal a : Int) : Rat) + ((digitsVal b : Int) : Rat) / ((10 : Rat) ^ b.length))
      else none

/-- Python `float()` with an optional sign. -/
def pyFloat (cs : List Char) : Option Rat :=
  match cs with
  | '-' :: rest => (pyFloatCore rest).map Neg.neg
  | '+' :: rest => pyFloatCore rest
  | _ => pyFloatCore cs

/-- Python `str.strip()`: drop leading and trailing whitespace. -/
def stripWS (cs : List Char) : List Char :=
  ((cs.dropWhile Char.isWhitespace).reverse.dropWhile Char.isWhitespace).reverse

/-- `parse_price` (lines 642-650): a falsy input (`None` or `""`) gives
`0.0`; otherwise drop every `'€'`, turn every `','` into `'.'`, strip
whitespace and parse as a float, with `ValueError` giving `0.0`. -/
def parse_price (price : Option String) : Rat :=
  match price with
  | none => 0
  | some s =>
      if s.isEmpty then 0
      else
        match pyFloat (stripWS ((s.data.filter (fun c => c ≠ '€')).map
            (fun c => if c = ',' then '.' else c))) with
        | some q => q
        | none => 0

/-! ### The session cart (add_to_cart lines 652-668, update_cart
lines 670-686, view_cart lines 688-725)

The session's `cart` dict is modelled as an association list
`product_id → quantity` in insertion order (Python dicts preserve it). -/

/-- A line item of the cart view (lines 710-717). The formatted
`subtotal` display string of the template is kept as the underlying
number. -/
structure CartItem where
  id : String
  display_name : String
  thumbnail : Option String
  unit_price : Option String
  quantity : Int
  subtotal : Rat
deriving DecidableEq

/-- The line item built from a found row and the session quantity,
with `subtotal = price_float * quantity` (lines 706-717). -/
def mkCartItem (p : ProductRow) (q : Int) : CartItem :=
  { id := p.id
    display_name := p.display_name
    thumbnail := p.thumbnail
    unit_price := p.unit_price
    quantity := q
    subtotal := parse_price p.unit_price * (q : Rat) }

/-- One iteration of the `view_cart` loop (lines 701-717): look the id
up in the store; a missing product contributes nothing, a found one
appends its line item and adds its subtotal to the running total. -/
def cartStep (s : Store) (acc : List CartItem × Rat) (e : String × Int) :
    List CartItem × Rat :=
  match findById s e.1 with
  | some p => (acc.1 ++ [mkCartItem p e.2], acc.2 + parse_price p.unit_price * (e.2 : Rat))
  | none => acc

/-- `view_cart`: fold the loop over the session cart starting from no
items and total `0.0`. -/
def view_cart (cart : List (String × Int)) (s : Store) : List CartItem × Rat :=
  cart.foldl (cartStep s) ([], 0)

/-- The cart mutations: `/cart/add` (add_to_cart), and `/cart/update`
with `action="update"` or `action="delete"` (update_cart). -/
inductive CartOp where
  | add (pid : String) (q : Int)
  | setQty (pid : String) (q : Int)
  | del (pid : String)
deriving DecidableEq

/-- Apply one cart mutation, exactly as the handlers do:
`add` sums into an existing entry or creates one with the given quantity
(lines 659-662, no positivity check); `setQty` overwrites a present
entry when the quantity is positive and deletes it otherwise
(lines 678-683); `del` removes the entry if present (lines 675-677). -/
def applyOp (cart : List (String × Int)) : CartOp → List (String × Int)
  | .add pid q =>
      if cart.any (fun e => e.1 = pid) then
        cart.map (fun e => if e.1 = pid then (e.1, e.2 + q) else e)
      else
        cart ++ [(pid, q)]
  | .setQty pid q =>
      if cart.any (fun e => e.1 = pid) then
        if q > 0 then
          cart.map (fun e => if e.1 = pid then (e.1, q) else e)
        else
          cart.filter (fun e => !(e.1 = pid))
      else cart
  | .del pid => cart.filter (fun e => !(e.1 = pid))

/-- Apply a sequence of cart mutations. -/
def applyOps (ops : List CartOp) (cart : List (String × Int)) :
    List (String × Int) :=
  ops.foldl applyOp cart

/-- Operations whose arguments cannot introduce a non-positive entry:
`add` must carry a positive quantity (delete-on-zero already guards
`setQty`, and `del` only removes). -/
def okOp : CartOp → Bool
  | .add _ q => q > 0
  | .setQty _ _ => true
  | .del _ => true

/-! ### Theorems -/

/-- A Phase-2 task resolves to a product exactly when its fetch returned
200 with a valid payload. -/
theorem fetchDetail_eq_some (oracle : String → DetailResult) (pid : String)
    (p : ProductDetail) :
    fetchDetail oracle pid = some p ↔ oracle pid = .ok p := by
  cases h : oracle pid <;> simp [fetchDetail, h]

/-- C1: For every category tree and every collection of per-subcategory
fetch results, the id set Phase 1 produces has no duplicates, its size is
at most the total number of product stubs collected across all
subcategories, and the id of every stub — in particular one reachable
from several subcategories — appears in it exactly once. -/
theorem c1_phase1_unique_ids (tree : List MainCategorySimple)
    (oracle : Int → CatResult) :
    (phase1UniqueIds tree oracle).Nodup ∧
    (phase1UniqueIds tree oracle).length ≤ (allProductStubs tree oracle).length ∧
    ∀ p ∈ allProductStubs tree oracle,
      (phase1UniqueIds tree oracle).count p.id = 1 := by
  refine ⟨List.nodup_dedup _, ?_, ?_⟩
  · calc (phase1UniqueIds tree oracle).length
        ≤ ((allProductStubs tree oracle).map (fun p => p.id)).length :=
          (List.dedup_sublist _).length_le
      _ = (allProductStubs tree oracle).length := List.length_map _ _
  · intro p hp
    exact List.count_eq_one_of_mem (List.nodup_dedup _)
      (List.mem_dedup.mpr (List.mem_map_of_mem _ hp))

/-- C2: The valid-product list of Phase 2 holds exactly the products
whose detail fetch returned 200 and parsed: every 404 or failed id
contributes nothing, and no failure removes the successes of other ids. -/
theorem c2_phase2_valid_products (oracle : String → DetailResult)
    (ids : List String) (p : ProductDetail) :
    p ∈ validProducts oracle ids ↔ ∃ pid ∈ ids, oracle pid = .ok p := by
  unfold validProducts
  rw [List.mem_filterMap]
  constructor
  · rintro ⟨o, ho, rfl⟩
    obtain ⟨pid, hpid, hfo⟩ := List.mem_map.mp ho
    exact ⟨pid, hpid, (fetchDetail_eq_some oracle pid _).mp hfo⟩
  · rintro ⟨pid, hpid, hok⟩
    exact ⟨some p, List.mem_map.mpr ⟨pid, hpid, (fetchDetail_eq_some oracle pid p).mpr hok⟩, rfl⟩

/-- C3: If the very first Phase-1 top-level fetch fails, the sync run
leaves the store exactly as it was, and a subsequent search returns the
pre-run content. -/
theorem c3_sync_noop_on_tree_failure (env : SyncEnv) (s : Store)
    (h : env.tree = .failed) :
    sync_database env s = s ∧
    ∀ words q, search_products words q (sync_database env s) =
      search_products words q s := by
  simp [sync_database, h]

/-- Witness for C3 at a concrete failing environment and a nonempty
prior store. -/
theorem c3_sync_noop_witness :
    sync_database
        ⟨TreeResult.failed, fun _ => CatResult.failed, fun _ => DetailResult.failed⟩
        [⟨"p1", "e1", "Agua", none, some "1,00 €", none⟩] =
      [⟨"p1", "e1", "Agua", none, some "1,00 €", none⟩] ∧
    ∀ words q,
      search_products words q
          (sync_database
            ⟨TreeResult.failed, fun _ => CatResult.failed, fun _ => DetailResult.failed⟩
            [⟨"p1", "e1", "Agua", none, some "1,00 €", none⟩]) =
        search_products words q [⟨"p1", "e1", "Agua", none, some "1,00 €", none⟩] :=
  c3_sync_noop_on_tree_failure _ _ rfl

/-! #### Upsert lemmas (C4, C5) -/

/-- Replacing the rows of some other id does not change a lookup. -/
theorem findById_map_replace_ne (s : Store) (r : ProductRow) (i : String)
    (hne : r.id ≠ i) :
    findById (s.map (fun x => if x.id = r.id then r else x)) i = findById s i := by
  induction s with
  | nil => rfl
  | cons x xs ih =>
    by_cases hx : x.id = r.id
    · simp [findById, hx, hne, ih]
    · simp [findById, hx, ih]

/-- After replacing the rows of `r.id`, looking `r.id` up yields `r`
(when some row carried that id). -/
theorem findById_map_replace_eq (s : Store) (r : ProductRow)
    (hany : s.any (fun x => x.id = r.id) = true) :
    findById (s.map (fun x => if x.id = r.id then r else x)) r.id = some r := by
  induction s with
  | nil => simp at hany
  | cons x xs ih =>
    by_cases hx : x.id = r.id
    · simp [findById, hx]
    · have hxs : xs.any (fun x => x.id = r.id) = true := by
        simp only [List.any_cons, Bool.or_eq_true, decide_eq_true_eq] at hany
        rcases hany with h | h
        · exact absurd h hx
        · exact h
      simp [findById, hx, ih hxs]

/-- Lookup through an appended row. -/
theorem findById_append (s : Store) (r : ProductRow) (i : String) :
    findById (s ++ [r]) i =
      match findById s i with
      | some x => some x
      | none => if r.id = i then some r else none := by
  induction s with
  | nil => rfl
  | cons x xs ih =>
    by_cases hx : x.id = i
    · simp [findById, hx]
    · simp [findById, hx, ih]

/-- An id no row carries looks up to nothing. -/
theorem findById_eq_none_of_not_any (s : Store) (j : String)
    (h : s.any (fun x => x.id = j) = false) : findById s j = none := by
  induction s with
  | nil => rfl
  | cons x xs ih =>
    simp only [List.any_cons, Bool.or_eq_false_iff, decide_eq_false_iff_not] at h
    simp [findById, h.1, ih h.2]

/-- One `INSERT OR REPLACE` changes exactly the looked-up row of its id. -/
theorem findById_upsertRow (s : Store) (r : ProductRow) (i : String) :
    findById (upsertRow s r) i = if r.id = i then some r else findById s i := by
  unfold upsertRow
  by_cases hany : s.any (fun x => x.id = r.id) = true
  · rw [if_pos hany]
    by_cases hri : r.id = i
    · subst hri
      rw [findById_map_replace_eq s r hany]
      simp
    · rw [findById_map_replace_ne s r i hri, if_neg hri]
  · rw [if_neg (by simp [hany]), findById_append]
    by_cases hri : r.id = i
    · subst hri
      rw [findById_eq_none_of_not_any s r.id (by simpa using hany)]
    · cases h : findById s i <;> simp [h, hri]

/-- Folding the last-record scan from any accumulator. -/
theorem lastWith_from_acc (b : List ProductRow) (i : String)
    (acc : Option ProductRow) :
    b.foldl (fun a r => if r.id = i then some r else a) acc =
      match lastWith b i with
      | some r => some r
      | none => acc := by
  induction b generalizing acc with
  | nil => simp [lastWith]
  | cons r rest ih =>
    have h2 : (r :: rest).foldl (fun a x => if x.id = i then some x else a) acc =
        rest.foldl (fun a x => if x.id = i then some x else a)
          (if r.id = i then some r else acc) := rfl
    have h1 : lastWith (r :: rest) i =
        rest.foldl (fun a x => if x.id = i then some x else a)
          (if r.id = i then some r else none) := rfl
    rw [h2, ih, h1, ih]
    cases h : lastWith rest i <;> by_cases hr : r.id = i <;> simp [hr]

/-- The bulk upsert, observed through lookup: the last batch record of an
id wins, and ids the batch does not carry keep their prior row. -/
theorem findById_upsertBatch (s : Store) (b : List ProductRow) (i : String) :
    findById (upsertBatch s b) i =
      match lastWith b i with
      | some r => some r
      | none => findById s i := by
  induction b generalizing s with
  | nil => simp [upsertBatch, lastWith]
  | cons r rest ih =>
    have hstep : upsertBatch s (r :: rest) = upsertBatch (upsertRow s r) rest := rfl
    rw [hstep, ih (upsertRow s r), findById_upsertRow]
    have h2 : lastWith (r :: rest) i =
        match lastWith rest i with
        | some r' => some r'
        | none => if r.id = i then some r else none := by
      have h1 : lastWith (r :: rest) i =
          rest.foldl (fun a x => if x.id = i then some x else a)
            (if r.id = i then some r else none) := rfl
      rw [h1, lastWith_from_acc]
    rw [h2]
    cases h : lastWith rest i <;> by_cases hr : r.id = i <;> simp [hr]

/-- C4: the Phase-3 bulk upsert is idempotent — applying the same batch
twice leaves every primary-key lookup, hence the store content, exactly
as after one application. -/
theorem c4_upsert_idempotent (s : Store) (b : List ProductRow) (i : String) :
    findById (upsertBatch (upsertBatch s b) b) i = findById (upsertBatch s b) i := by
  rw [findById_upsertBatch, findById_upsertBatch]
  cases h : lastWith b i <;> simp

/-- Replacing rows of one id keeps the id column unchanged. -/
theorem map_id_map_replace (s : Store) (r : ProductRow) :
    (s.map (fun x => if x.id = r.id then r else x)).map (fun x => x.id) =
      s.map (fun x => x.id) := by
  induction s with
  | nil => rfl
  | cons x xs ih =>
    by_cases hx : x.id = r.id
    · simp [hx, ih]
    · simp [hx, ih]

/-- One `INSERT OR REPLACE` preserves the PRIMARY KEY invariant. -/
theorem storeInv_upsertRow (s : Store) (r : ProductRow) (h : StoreInv s) :
    StoreInv (upsertRow s r) := by
  unfold upsertRow
  by_cases hany : s.any (fun x => x.id = r.id) = true
  · rw [if_pos hany]
    unfold StoreInv at *
    rw [map_id_map_replace]
    exact h
  · rw [if_neg (by simp [hany])]
    unfold StoreInv at *
    rw [List.map_append]
    have hni : r.id ∉ s.map (fun x => x.id) := by
      intro hmem
      obtain ⟨x, hx, hxid⟩ := List.mem_map.mp hmem
      have : s.any (fun x => x.id = r.id) = true :=
        List.any_eq_true.mpr ⟨x, hx, by simp [hxid]⟩
      exact hany this
    simp [List.nodup_append, h, hni]

/-- The bulk upsert preserves the PRIMARY KEY invariant. -/
theorem storeInv_upsertBatch (s : Store) (b : List ProductRow) (h : StoreInv s) :
    StoreInv (upsertBatch s b) := by
  induction b generalizing s with
  | nil => exact h
  | cons r rest ih =>
    unfold upsertBatch
    simp only [List.foldl_cons]
    exact ih (upsertRow s r) (storeInv_upsertRow s r h)

/-- Under the PRIMARY KEY invariant, rows with equal ids are equal. -/
theorem eq_of_mem_storeInv (s : Store) (h : StoreInv s) (x y : ProductRow)
    (hx : x ∈ s) (hy : y ∈ s) (hid : x.id = y.id) : x = y := by
  induction s with
  | nil => cases hx
  | cons a l ih =>
    unfold StoreInv at h
    rw [List.map_cons, List.nodup_cons] at h
    rcases List.mem_cons.mp hx with rfl | hx' <;>
      rcases List.mem_cons.mp hy with rfl | hy'
    · rfl
    · exact absurd (List.mem_map.mpr ⟨y, hy', hid.symm⟩) h.1
    · exact absurd (List.mem_map.mpr ⟨x, hx', hid⟩) h.1
    · exact ih h.2 hx' hy'

/-- A successful lookup returns a member row carrying the looked-up id. -/
theorem findById_mem (s : Store) (i : String) (x : ProductRow)
    (h : findById s i = some x) : x ∈ s ∧ x.id = i := by
  induction s with
  | nil => cases h
  | cons a l ih =>
    unfold findById at h
    by_cases ha : a.id = i
    · rw [if_pos ha] at h
      cases h
      exact ⟨List.mem_cons_self _ _, ha⟩
    · rw [if_neg ha] at h
      obtain ⟨hm, hi⟩ := ih h
      exact ⟨List.mem_cons_of_mem _ hm, hi⟩

/-- Under the PRIMARY KEY invariant a found id is carried by exactly one
row. -/
theorem countId_eq_one (s : Store) (i : String) (x : ProductRow)
    (hinv : StoreInv s) (h : findById s i = some x) : countId s i = 1 := by
  induction s with
  | nil => cases h
  | cons a l ih =>
    unfold StoreInv at hinv
    rw [List.map_cons, List.nodup_cons] at hinv
    unfold findById at h
    by_cases ha : a.id = i
    · have h0 : l.countP (fun x => x.id = i) = 0 := by
        rw [List.countP_eq_zero]
        intro y hy
        simp only [decide_eq_true_eq]
        intro hyi
        exact hinv.1 (List.mem_map.mpr ⟨y, hy, by rw [hyi, ha]⟩)
      simp [countId, List.countP_cons, ha, h0]
    · rw [if_neg ha] at h
      have := ih hinv.2 h
      simp only [countId] at this
      simp [countId, List.countP_cons, ha, this]

/-- C5: when the store holds a row with id `X` and the batch carries a
record for `X` (the batch's last such record being `r`), the bulk upsert
leaves exactly one row for `X`, and that row is `r` in every field — no
field of the old row survives. -/
theorem c5_upsert_overwrites (s : Store) (b : List ProductRow) (X : String)
    (old r : ProductRow) (hinv : StoreInv s) (hold : findById s X = some old)
    (hlast : lastWith b X = some r) :
    findById (upsertBatch s b) X = some r ∧
    (∀ x ∈ upsertBatch s b, x.id = X → x = r) ∧
    countId (upsertBatch s b) X = 1 := by
  have hfind : findById (upsertBatch s b) X = some r := by
    rw [findById_upsertBatch, hlast]
  have hinv' := storeInv_upsertBatch s b hinv
  have hmem := findById_mem _ _ _ hfind
  refine ⟨hfind, ?_, countId_eq_one _ _ _ hinv' hfind⟩
  intro x hx hxX
  exact eq_of_mem_storeInv _ hinv' x r hx hmem.1 (by rw [hxX, hmem.2])

/-- A concrete old row for the C5 witness. -/
def c5OldRow : ProductRow :=
  { id := "X", ean := "oldean", display_name := "Old", thumbnail := none
    unit_price := some "9,99 €", share_url := none }

/-- A concrete replacement record for the C5 witness. -/
def c5NewRow : ProductRow :=
  { id := "X", ean := "newean", display_name := "New", thumbnail := some "t"
    unit_price := some "2,50 €", share_url := some "u" }

/-- Witness for C5: a concrete store with a row of id `"X"` and a batch
overwriting every field of it. -/
theorem c5_upsert_overwrites_witness :
    findById (upsertBatch [c5OldRow] [c5NewRow]) "X" = some c5NewRow ∧
    (∀ x ∈ upsertBatch [c5OldRow] [c5NewRow], x.id = "X" → x = c5NewRow) ∧
    countId (upsertBatch [c5OldRow] [c5NewRow]) "X" = 1 :=
  c5_upsert_overwrites [c5OldRow] [c5NewRow] "X" c5OldRow c5NewRow
    (by decide) (by decide) (by decide)

/-! #### LIKE semantics (C6, C10) -/

/-- Boolean `any` only depends on the pointwise values. -/
theorem any_congr_on {α : Type} (l : List α) (f g : α → Bool)
    (h : ∀ x ∈ l, f x = g x) : l.any f = l.any g := by
  induction l with
  | nil => rfl
  | cons x xs ih =>
    simp only [List.any_cons]
    rw [h x (List.mem_cons_self _ _), ih (fun y hy => h y (List.mem_cons_of_mem _ hy))]

/-- Boolean `all` only depends on the pointwise values. -/
theorem all_congr_on {α : Type} (l : List α) (f g : α → Bool)
    (h : ∀ x ∈ l, f x = g x) : l.all f = l.all g := by
  induction l with
  | nil => rfl
  | cons x xs ih =>
    simp only [List.all_cons]
    rw [h x (List.mem_cons_self _ _), ih (fun y hy => h y (List.mem_cons_of_mem _ hy))]

/-- `filter` only depends on the pointwise values. -/
theorem filter_congr_on {α : Type} (l : List α) (f g : α → Bool)
    (h : ∀ x ∈ l, f x = g x) : l.filter f = l.filter g := by
  induction l with
  | nil => rfl
  | cons x xs ih =>
    simp only [List.filter_cons]
    rw [h x (List.mem_cons_self _ _), ih (fun y hy => h y (List.mem_cons_of_mem _ hy))]

/-- The pattern `%` alone matches every string. -/
theorem likeMatch_pct (s : List Char) : likeMatch ['%'] s = true := by
  induction s with
  | nil => rfl
  | cons d s' ih =>
    simp only [likeMatch, if_pos rfl, List.tails]
    simp only [likeMatch, if_pos rfl] at ih
    simp [ih]

/-- A wildcard-free pattern followed by `%` matches exactly the strings
that start (after ASCII folding) with the pattern. -/
theorem likeMatch_literal_pct (w : List Char)
    (hw : ∀ c ∈ w, ¬c = '%' ∧ ¬c = '_') :
    ∀ s, likeMatch (w ++ ['%']) s = startsWithF (foldL w) (foldL s) := by
  induction w with
  | nil =>
    intro s
    rw [List.nil_append, likeMatch_pct]
    rfl
  | cons c w' ih =>
    intro s
    have hc := hw c (List.mem_cons_self _ _)
    have hw' : ∀ x ∈ w', ¬x = '%' ∧ ¬x = '_' :=
      fun x hx => hw x (List.mem_cons_of_mem _ hx)
    cases s with
    | nil => simp [likeMatch, foldL, startsWithF, hc.1]
    | cons d s' =>
      simp only [List.cons_append, likeMatch, if_neg hc.1]
      simp [foldL, startsWithF, hc.2, ih hw' s']

/-- Scanning the folded suffixes for a folded start is the folded
substring test. -/
theorem containsF_fold_tails (n : List Char) (s : List Char) :
    s.tails.any (fun t => startsWithF n (foldL t)) = containsF n (foldL s) := by
  induction s with
  | nil => simp [List.tails, containsF, foldL]
  | cons d s' ih =>
    simp only [List.tails, List.any_cons, ih]
    have h1 : foldL (d :: s') = foldChar d :: foldL s' := rfl
    rw [h1]
    rfl

/-- On wildcard-free words the SQL LIKE condition `%word%` is exactly the
ASCII-case-insensitive substring test. -/
theorem likeWord_eq_ciSubstr (w name : String) (hw : noWildcard w = true) :
    likeWord w name = ciSubstr w name := by
  have hw' : ∀ c ∈ w.data, ¬c = '%' ∧ ¬c = '_' := by
    intro c hc
    have := List.all_eq_true.mp hw c hc
    simpa using this
  unfold likeWord ciSubstr
  have h0 : likeMatch ('%' :: (w.data ++ ['%'])) name.data =
      name.data.tails.any (fun t => likeMatch (w.data ++ ['%']) t) := by
    simp [likeMatch]
  rw [h0,
    any_congr_on _ _ (fun t => startsWithF (foldL w.data) (foldL t))
      (fun t _ => likeMatch_literal_pct w.data hw' t),
    containsF_fold_tails]

/-- A store row whose display name contains `"abc"` but not the literal
word `"a_c"`. -/
def c6Row : ProductRow :=
  { id := "p1", ean := "e1", display_name := "abc", thumbnail := none
    unit_price := none, share_url := none }

/-- Counterexample to C6 as stated: with the word `"a_c"` the search
returns the row named `"abc"`, yet the spec predicate (every word a
case-insensitive substring, or exact ean/id match) rejects it — the SQL
LIKE underscore acts as a wildcard, not a literal. -/
theorem c6_search_claim_counterexample :
    search_products ["a_c"] "a_c" [c6Row] ≠
      List.filter (fun r => specMatches ["a_c"] "a_c" r) [c6Row] := by
  decide

/-- C6 (amended): search with an empty word list returns the empty
result; and provided no word contains a SQL LIKE wildcard character
(`%` or `_`), search returns exactly the rows in which every word is an
ASCII-case-insensitive substring of `display_name`, or whose `ean`
equals the raw query exactly, or whose `id` equals the raw query
exactly. -/
theorem c6_search_semantics (words : List String) (q : String) (s : Store)
    (hw : ∀ w ∈ words, noWildcard w = true) :
    search_products [] q s = [] ∧
    search_products words q s =
      if words.isEmpty then [] else s.filter (specMatches words q) := by
  refine ⟨rfl, ?_⟩
  unfold search_products
  by_cases he : words.isEmpty
  · rw [if_pos he, if_pos he]
  · rw [if_neg he, if_neg he]
    apply filter_congr_on
    intro r _
    unfold rowMatches specMatches
    rw [all_congr_on _ _ (fun w => ciSubstr w r.display_name)
      (fun w hww => likeWord_eq_ciSubstr w r.display_name (hw w hww))]

/-- A store row for the C6 witness: its `ean` is the barcode
`"8410000123456"` and its display name does not contain that string. -/
def c6EanRow : ProductRow :=
  { id := "p9", ean := "8410000123456", display_name := "Leche Entera"
    thumbnail := none, unit_price := none, share_url := none }

/-- Witness for C6 at the claim's own example: the barcode query has no
wildcard, and the search equals the spec filter — which keeps
`c6EanRow` by its exact `ean` match even though no display name
contains the barcode. -/
theorem c6_search_semantics_witness :
    (search_products [] "8410000123456" [c6EanRow] = [] ∧
      search_products ["8410000123456"] "8410000123456" [c6EanRow] =
        if List.isEmpty ["8410000123456"] then []
        else List.filter (specMatches ["8410000123456"] "8410000123456") [c6EanRow]) ∧
    search_products ["8410000123456"] "8410000123456" [c6EanRow] = [c6EanRow] :=
  ⟨c6_search_semantics ["8410000123456"] "8410000123456" [c6EanRow] (by decide),
    by decide⟩

/-- A store row whose display name contains `"abc"`, for C10. -/
def c10Row : ProductRow :=
  { id := "p2", ean := "e2", display_name := "abc", thumbnail := none
    unit_price := none, share_url := none }

/-- C10: search words reach the SQL LIKE pattern unescaped, so the word
`"a_c"` — whose `_` is a LIKE wildcard — makes the search return the row
named `"abc"`, although `"a_c"` is not a literal (nor even a
case-insensitive) substring of `"abc"`. -/
theorem c10_unescaped_wildcard :
    search_products ["a_c"] "a_c" [c10Row] = [c10Row] ∧
    litSubstr "a_c" c10Row.display_name = false ∧
    ciSubstr "a_c" c10Row.display_name = false := by
  decide

/-- C7: `parse_price` maps the locale string `"2,50 €"` to `2.50` and
maps the empty or unparseable input (and a missing price) to `0.0`,
returning in every case rather than raising. -/
theorem c7_parse_price_examples :
    parse_price (some "2,50 €") = 5 / 2 ∧
    parse_price (some "") = 0 ∧
    parse_price (some "garbage") = 0 ∧
    parse_price none = 0 := by
  refine ⟨?_, rfl, rfl, rfl⟩
  have h : parse_price (some "2,50 €") =
      ((2 : Int) : Rat) + ((50 : Int) : Rat) / ((10 : Rat) ^ 2) := by rfl
  rw [h]; norm_num

/-! #### Cart view (C8) -/

/-- The line items a cart slice contributes: one item per entry whose id
is found in the store. -/
def cartLineItems (cart : List (String × Int)) (s : Store) : List CartItem :=
  cart.filterMap (fun e => (findById s e.1).map (fun p => mkCartItem p e.2))

/-- The `view_cart` loop from any accumulator: it appends exactly the
found entries' line items and adds exactly their subtotals. -/
theorem view_cart_go (cart : List (String × Int)) (s : Store)
    (acc : List CartItem × Rat) :
    (cart.foldl (cartStep s) acc).1 = acc.1 ++ cartLineItems cart s ∧
    (cart.foldl (cartStep s) acc).2 =
      acc.2 + ((cartLineItems cart s).map (fun it => it.subtotal)).sum := by
  induction cart generalizing acc with
  | nil => simp [cartLineItems]
  | cons e rest ih =>
    simp only [List.foldl_cons]
    cases h : findById s e.1 with
    | none =>
      have hs : cartStep s acc e = acc := by simp [cartStep, h]
      rw [hs]
      have hl : cartLineItems (e :: rest) s = cartLineItems rest s := by
        simp [cartLineItems, List.filterMap_cons, h]
      rw [hl]
      exact ih acc
    | some p =>
      have hs : cartStep s acc e =
          (acc.1 ++ [mkCartItem p e.2],
            acc.2 + parse_price p.unit_price * (e.2 : Rat)) := by
        simp [cartStep, h]
      rw [hs]
      have hl : cartLineItems (e :: rest) s =
          mkCartItem p e.2 :: cartLineItems rest s := by
        simp [cartLineItems, List.filterMap_cons, h]
      rw [hl]
      obtain ⟨ih1, ih2⟩ := ih (acc.1 ++ [mkCartItem p e.2],
        acc.2 + parse_price p.unit_price * (e.2 : Rat))
      constructor
      · rw [ih1]
        simp
      · rw [ih2]
        have hsub : (mkCartItem p e.2).subtotal =
            parse_price p.unit_price * (e.2 : Rat) := rfl
        simp [hsub]
        ring

/-- The store row of the C8 example: product `"A"` priced `"1,00 €"`. -/
def c8RowA : ProductRow :=
  { id := "A", ean := "eA", display_name := "Agua", thumbnail := none
    unit_price := some "1,00 €", share_url := none }

/-- C8: the cart view holds one line item per cart entry found in the
store (with `subtotal = quantity * parsed unit price`), its total is the
sum of those subtotals, and entries absent from the store contribute
nothing; on the claim's example — cart `A↦2, B↦1` over a store holding
only `A` at `"1,00 €"` — it yields the single line item for `A` with
subtotal `2` and total `2`. -/
theorem c8_cart_view (cart : List (String × Int)) (s : Store) :
    (view_cart cart s).1 = cartLineItems cart s ∧
    (view_cart cart s).2 =
      ((view_cart cart s).1.map (fun it => it.subtotal)).sum ∧
    (view_cart [("A", 2), ("B", 1)] [c8RowA]).1 = [mkCartItem c8RowA 2] ∧
    (mkCartItem c8RowA 2).subtotal = 2 ∧
    (view_cart [("A", 2), ("B", 1)] [c8RowA]).2 = 2 := by
  obtain ⟨h1, h2⟩ := view_cart_go cart s ([], 0)
  have hsub : (mkCartItem c8RowA 2).subtotal =
      (((1 : Int) : Rat) + ((0 : Int) : Rat) / ((10 : Rat) ^ 2)) * ((2 : Int) : Rat) := rfl
  have hsub2 : (mkCartItem c8RowA 2).subtotal = 2 := by rw [hsub]; norm_num
  refine ⟨by simpa [view_cart] using h1, ?_, ?_, hsub2, ?_⟩
  · unfold view_cart at *
    rw [h2, h1]
    simp
  · have := (view_cart_go [("A", 2), ("B", 1)] [c8RowA] ([], 0)).1
    simpa [view_cart, cartLineItems, findById, c8RowA] using this
  · have := (view_cart_go [("A", 2), ("B", 1)] [c8RowA] ([], 0)).2
    rw [view_cart, this]
    have hli : cartLineItems [("A", 2), ("B", 1)] [c8RowA] = [mkCartItem c8RowA 2] := by
      simp [cartLineItems, findById, c8RowA]
    rw [hli]
    simp [hsub2]

/-! #### Cart mutation invariant (C9) -/

/-- One cart mutation keeps every quantity positive, provided an `add`
carries a positive quantity. -/
theorem applyOp_pos (cart : List (String × Int)) (op : CartOp)
    (hok : okOp op = true) (hc : ∀ e ∈ cart, 0 < e.2) :
    ∀ e ∈ applyOp cart op, 0 < e.2 := by
  cases op with
  | add pid q =>
    have hq : 0 < q := by simpa [okOp] using hok
    intro e he
    simp only [applyOp] at he
    by_cases hany : cart.any (fun e => e.1 = pid) = true
    · rw [if_pos hany] at he
      obtain ⟨x, hx, hxe⟩ := List.mem_map.mp he
      by_cases hxp : x.1 = pid
      · rw [if_pos hxp] at hxe
        rw [← hxe]
        have := hc x hx
        simp only []
        omega
      · rw [if_neg hxp] at hxe
        rw [← hxe]
        exact hc x hx
    · rw [if_neg hany] at he
      rcases List.mem_append.mp he with h | h
      · exact hc e h
      · rw [List.mem_singleton.mp h]
        exact hq
  | setQty pid q =>
    intro e he
    simp only [applyOp] at he
    by_cases hany : cart.any (fun e => e.1 = pid) = true
    · rw [if_pos hany] at he
      by_cases hq : q > 0
      · rw [if_pos hq] at he
        obtain ⟨x, hx, hxe⟩ := List.mem_map.mp he
        by_cases hxp : x.1 = pid
        · rw [if_pos hxp] at hxe
          rw [← hxe]
          exact hq
        · rw [if_neg hxp] at hxe
          rw [← hxe]
          exact hc x hx
      · rw [if_neg hq] at he
        exact hc e (List.mem_filter.mp he).1
    · rw [if_neg hany] at he
      exact hc e he
  | del pid =>
    intro e he
    simp only [applyOp] at he
    exact hc e (List.mem_filter.mp he).1

/-- Every quantity stays positive along a run of well-formed mutations. -/
theorem applyOps_pos (ops : List CartOp) (cart : List (String × Int))
    (h : ∀ op ∈ ops, okOp op = true) (hc : ∀ e ∈ cart, 0 < e.2) :
    ∀ e ∈ applyOps ops cart, 0 < e.2 := by
  induction ops generalizing cart with
  | nil => exact hc
  | cons op rest ih =>
    have hstep : applyOps (op :: rest) cart = applyOps rest (applyOp cart op) := rfl
    rw [hstep]
    exact ih (applyOp cart op)
      (fun o ho => h o (List.mem_cons_of_mem _ ho))
      (applyOp_pos cart op (h op (List.mem_cons_self _ _)) hc)

/-- Counterexample to C9 as stated: `add_to_cart` applies Form quantities
without a positivity check, so adding quantity `0` to the empty cart
leaves an entry with quantity `≤ 0`. -/
theorem c9_cart_claim_counterexample :
    ¬ ∀ (ops : List CartOp) (e : String × Int), e ∈ applyOps ops [] → 0 < e.2 := by
  intro h
  exact absurd (h [CartOp.add "A" 0] ("A", 0) (by decide)) (by decide)

/-- C9 (amended): for every sequence of cart mutations applied to the
initially empty session cart in which every `add` carries a strictly
positive quantity, every entry remaining in the cart has a strictly
positive quantity — set-quantity and delete need no restriction thanks
to delete-on-zero. -/
theorem c9_cart_positive (ops : List CartOp)
    (h : ∀ op ∈ ops, okOp op = true) :
    ∀ e ∈ applyOps ops [], 0 < e.2 :=
  applyOps_pos ops [] h (by simp)

/-- Witness for C9 at a concrete mutation sequence. -/
theorem c9_cart_positive_witness :
    (("A", (5 : Int)) ∈
      applyOps [CartOp.add "A" 2, CartOp.setQty "A" 5, CartOp.add "B" 1,
        CartOp.setQty "B" 0] []) ∧ (0 : Int) < 5 :=
  ⟨by decide,
    c9_cart_positive [CartOp.add "A" 2, CartOp.setQty "A" 5, CartOp.add "B" 1,
      CartOp.setQty "B" 0] (by decide) ("A", 5) (by decide)⟩

end Mercadona
